import Mathlib

/-!
Verification development for the places-recommendation service.

This file gives a shallow embedding of the core pipeline of the repository:

* the text-enrichment component of the batch indexer
  (`create_embedings_qdrant.py`: `extract_neighborhood_from_address`,
  `format_rating`, `format_price_level`, `generate_enriched_text`);
* the embedding client with its retry loop
  (`create_embedings_qdrant.py`: `generate_embedding`);
* the vector-index adapter (`db/qdrant/repository.py`:
  `search_similar_places`, `upsert_embedding`) and the point-existence
  check (`check_if_embedding_exists`);
* the relational repository (`db/posgresql/repository/places.py`:
  `get_places_by_ids`);
* the query-time orchestrator (`api/v1/places/services.py`:
  `PlaceRecommendationService.get_recommendations`);
* the batch indexer loop (`create_embedings_qdrant.py`:
  `process_all_places`).

Modelling conventions:

* Python `Decimal` / similarity-score floats are modelled as `Rat`; the
  claims under study are order/flow properties, not rounding properties.
* UUIDs are modelled as `Nat` with the decimal string as canonical form:
  `idToString` models Python `str(uuid)` and `parseId` models the
  `UUID(string)` constructor (`none` models the `ValueError` branch).
  This keeps the structure of the source: parsing canonicalises, can
  fail, and round-trips exactly on canonical strings.
* External calls (OpenAI, the Qdrant backend transport, the PostgreSQL
  session) are fields of a dependency record; `Except.error` models a
  raised exception at that call site.
* The `id`/`created_at`/`updated_at`/`deleted_at` columns of the model
  come from `db.posgresql.base.BaseModel`, which is referenced but not
  present under the repository sources; they are carried here as plain
  fields as described by the spec (unique id, soft-delete timestamp,
  bookkeeping timestamps rendered to strings for the payload snapshot).
-/

namespace RecPlaces

/-- Models Python `str(place.id)` on the `Nat` model of UUIDs. -/
def idToString (n : Nat) : String := toString n

/-- Numeric value of a decimal digit character. -/
def digitVal? (c : Char) : Option Nat :=
  if '0' ≤ c ∧ c ≤ '9' then some (c.toNat - '0'.toNat) else none

/-- Models the Python `UUID(place_id)` constructor used by
`PlaceRepository.get_places_by_ids`: `none` models the `ValueError`
branch (invalid id), and a successful parse canonicalises the string
(leading zeros are not reproduced by printing, exactly as a non-canonical
UUID string is not reproduced by `str(UUID(s))`). -/
def parseId (s : String) : Option Nat :=
  if s.toList = [] then none
  else
    s.toList.foldl
      (fun acc c =>
        match acc, digitVal? c with
        | some n, some d => some (n * 10 + d)
        | _, _ => none)
      (some 0)

/-- A row of the `public.places` table (`models/public/places.py` plus the
base-model columns).  `deleted_at = none` means the row is live. -/
structure Place where
  id : Nat
  name : String
  description : Option String
  latitude : Rat
  longitude : Rat
  category : String
  rating : Option Rat
  price_level : Option String
  price_average : Option Rat
  price_currency : Option String
  address : Option String
  created_at : Option String
  updated_at : Option String
  deleted_at : Option Nat
deriving DecidableEq

/-! ### Text enrichment (`create_embedings_qdrant.py`)

The neighborhood regexes all have the shape
`(?:KW1|KW2\.?)\s+([^,\n]+)` searched case-insensitively.  The matcher
below implements exactly that shape: leftmost search position, the
alternatives tried in order at each position, the optional dot tried
greedily with backtracking, `\s+` greedy with backtracking into the
capture, and the capture `[^,\n]+` greedy. -/

/-- Case-insensitive literal match of `kw` at the head of `s`; returns the
remainder on success (ASCII case folding, as the keywords are ASCII apart
from `ó`, which no keyword needs case-folded in the source data model). -/
def dropLitCI : List Char → List Char → Option (List Char)
  | [], s => some s
  | _ :: _, [] => none
  | c :: cs, d :: ds => if c.toLower = d.toLower then dropLitCI cs ds else none

/-- The capture `[^,\n]+`: maximal nonempty run of characters other than
comma and newline. -/
def capturePart (s : List Char) : Option (List Char) :=
  let cap := s.takeWhile (fun c => c ≠ ',' && c ≠ '\n')
  if cap.isEmpty then none else some cap

/-- `\s+([^,\n]+)` with the usual greedy backtracking: consume as much
whitespace as possible, then retreat until the capture can start. -/
def spacesThenCapture : List Char → Option (List Char)
  | [] => none
  | c :: rest =>
    if c.isWhitespace then
      match spacesThenCapture rest with
      | some cap => some cap
      | none => capturePart rest
    else none

/-- One alternative `KW` or `KW\.?` followed by `\s+([^,\n]+)`, anchored at
the current position. -/
def tryAlt (kw : List Char) (optDot : Bool) (s : List Char) : Option (List Char) :=
  match dropLitCI kw s with
  | none => none
  | some rest =>
    if optDot then
      match rest with
      | '.' :: r2 =>
        match spacesThenCapture r2 with
        | some cap => some cap
        | none => spacesThenCapture rest
      | _ => spacesThenCapture rest
    else spacesThenCapture rest

/-- The alternation of one pattern, tried left to right at a fixed
position. -/
def tryPatternAt (alts : List (List Char × Bool)) (s : List Char) : Option (List Char) :=
  match alts with
  | [] => none
  | (kw, od) :: rest =>
    match tryAlt kw od s with
    | some cap => some cap
    | none => tryPatternAt rest s

/-- `re.search` for one pattern: try every start position left to right. -/
def searchPat (alts : List (List Char × Bool)) : List Char → Option (List Char)
  | [] => none
  | c :: rest =>
    match tryPatternAt alts (c :: rest) with
    | some cap => some cap
    | none => searchPat alts rest

/-- The prioritised pattern list of
`PlaceEmbeddingQdrantGenerator.extract_neighborhood_from_address`. -/
def neighborhoodPatterns : List (List (List Char × Bool)) :=
  [ [("Colonia".toList, false), ("Col".toList, true)],
    [("Zona".toList, false), ("Z".toList, true)],
    [("Fraccionamiento".toList, false), ("Fracc".toList, true)],
    [("Barrio".toList, false), ("B".toList, true)],
    [("Delegación".toList, false), ("Del".toList, true)] ]

/-- The `for pattern in patterns` loop: first pattern that matches anywhere
in the address wins. -/
def firstPatternMatch : List (List (List Char × Bool)) → List Char → Option (List Char)
  | [], _ => none
  | p :: ps, a =>
    match searchPat p a with
    | some cap => some cap
    | none => firstPatternMatch ps a

/-- Python `str.strip()` on both ends. -/
def stripWS (s : List Char) : List Char :=
  (((s.dropWhile Char.isWhitespace).reverse).dropWhile Char.isWhitespace).reverse

/-- `re.sub(r"[.,;]$", "", s)`: drop one trailing `.`/`,`/`;` if present
(the capture can contain neither `,` nor a newline, so the end-of-string
anchor case is the only reachable one). -/
def dropTrailingPunct (s : List Char) : List Char :=
  match s.reverse with
  | [] => s
  | c :: rest => if c = '.' || c = ',' || c = ';' then rest.reverse else s

/-- The post-match cleanup applied to `match.group(1)`. -/
def cleanupNeighborhood (cap : List Char) : List Char :=
  dropTrailingPunct (stripWS cap)

/-- `PlaceEmbeddingQdrantGenerator.extract_neighborhood_from_address`. -/
def extract_neighborhood_from_address (address : String) : String :=
  if address.isEmpty then ""
  else
    match firstPatternMatch neighborhoodPatterns address.toList with
    | some cap => String.mk (cleanupNeighborhood cap)
    | none => ""

/-- The legacy fallback of `create_embedings.py`
(`PlaceEmbeddingGenerator.extract_neighborhood_from_address`, lines
66-71): the segment of the address between the first comma and the next
one, stripped; empty when the address has no comma. -/
def afterFirstCommaSeg : List Char → Option (List Char)
  | [] => none
  | ',' :: rest => some (rest.takeWhile (fun c => c ≠ ','))
  | _ :: rest => afterFirstCommaSeg rest

/-- String wrapper of the legacy after-the-first-comma fallback. -/
def afterFirstComma (s : String) : String :=
  match afterFirstCommaSeg s.toList with
  | some seg => String.mk (stripWS seg)
  | none => ""

/-- `PlaceEmbeddingQdrantGenerator.format_rating` (the discretisation
bands; `4.5` and `3.5` written as exact rationals). -/
def format_rating : Option Rat → String
  | none => ""
  | some r =>
    if mkRat 9 2 ≤ r then "excelente calificación"
    else if 4 ≤ r then "muy buena calificación"
    else if mkRat 7 2 ≤ r then "buena calificación"
    else if 3 ≤ r then "calificación promedio"
    else "calificación regular"

/-- `PlaceEmbeddingQdrantGenerator.format_price_level`. -/
def format_price_level : Option String → String
  | none => ""
  | some s =>
    if s.isEmpty then ""
    else
      let u := s.toUpper
      if u = "LOW" then "económico"
      else if u = "MEDIUM" then "moderado"
      else if u = "HIGH" then "alto"
      else if u = "PREMIUM" then "premium"
      else s.toLower

/-- `re.sub(r"\s+", " ", s)`: every maximal whitespace run becomes one
space. -/
def collapseWS (l : List Char) : List Char :=
  l.foldr
    (fun c acc =>
      if c.isWhitespace then
        match acc with
        | ' ' :: _ => acc
        | _ => ' ' :: acc
      else c :: acc)
    []

/-- `PlaceEmbeddingQdrantGenerator.generate_enriched_text`: the parts are
joined with `"".join`, then whitespace is collapsed and the result is
stripped. -/
def generate_enriched_text (place : Place) : String :=
  let name := place.name
  let category := place.category
  let description := place.description.getD ""
  let rating_text := format_rating place.rating
  let price_text := format_price_level place.price_level
  let neighborhood := extract_neighborhood_from_address (place.address.getD "")
  let part1 := if category ≠ "" then name ++ " es un " ++ category else name
  let parts :=
    [part1]
      ++ (if neighborhood ≠ "" then ["ubicado en " ++ neighborhood] else [])
      ++ [if description ≠ "" then ". " ++ description else "."]
      ++ (if rating_text ≠ "" then [" Este lugar tiene una " ++ rating_text] else [])
      ++ (if price_text ≠ "" then [" y maneja precios de rango " ++ price_text] else [])
  String.mk (stripWS (collapseWS (String.join parts).toList))

/-! ### Embedding client (`create_embedings_qdrant.py`, `generate_embedding`)

The provider is an oracle from the attempt index to the outcome of that
attempt (`Except.error` models the raised exception).  The function
returns the value of the Python function (`some` embedding, or `none`
after the `for` loop is exhausted) together with the list of
`time.sleep` durations performed between attempts. -/

/-- `self.max_retries` of `PlaceEmbeddingQdrantGenerator`. -/
def max_retries : Nat := 3

/-- `self.retry_delay` (seconds) of `PlaceEmbeddingQdrantGenerator`. -/
def retry_delay : Nat := 1

/-- The body of the `for attempt in range(max_retries)` loop:
`attempt` is the current 0-based index and `remaining` the number of
loop iterations left. -/
def generate_embedding_go (provider : Nat → Except String (List Rat)) :
    Nat → Nat → Option (List Rat) × List Nat
  | _, 0 => (none, [])
  | attempt, r + 1 =>
    match provider attempt with
    | .ok emb => (some emb, [])
    | .error _ =>
      match r with
      | 0 => (none, [])
      | _ + 1 =>
        let rest := generate_embedding_go provider (attempt + 1) r
        (rest.1, retry_delay * (attempt + 1) :: rest.2)

/-- `PlaceEmbeddingQdrantGenerator.generate_embedding`. -/
def generate_embedding (provider : Nat → Except String (List Rat)) :
    Option (List Rat) × List Nat :=
  generate_embedding_go provider 0 max_retries

/-! ### Vector index adapter (`db/qdrant/repository.py`) -/

/-- One element of the result list of `search_similar_places`: the
`{"id": ..., "score": ..., "payload": ...}` dictionary built from a
Qdrant `ScoredPoint`.  The payload is an opaque metadata snapshot the
service never reads. -/
structure SearchHit where
  id : String
  score : Rat
  payload : List (String × String)
deriving DecidableEq

/-- Failures of `search_similar_places`: the local dimension-check
`ValueError` versus any error propagated from the Qdrant client. -/
inductive SearchError where
  | dimensionMismatch (expected got : Nat)
  | backend (msg : String)
deriving DecidableEq

/-- `self.vector_size` of `PlaceEmbeddingRepository`. -/
def vector_size : Nat := 1536

/-- `PlaceEmbeddingRepository.search_similar_places` with the backend
transport (`self.client.search` plus result formatting) abstracted as a
function argument; the service always calls it without filters, so the
filter-construction branch (reached only with `filters` set) is not
modelled. -/
def search_similar_places
    (backend : List Rat → Nat → Rat → Except String (List SearchHit))
    (query_embedding : List Rat) (limit : Nat) (score_threshold : Rat) :
    Except SearchError (List SearchHit) :=
  if query_embedding.length ≠ vector_size then
    .error (.dimensionMismatch vector_size query_embedding.length)
  else
    match backend query_embedding limit score_threshold with
    | .ok results => .ok results
    | .error e => .error (.backend e)

/-- The denormalised metadata snapshot built by
`save_embedding_to_qdrant` (Python truthiness: a numeric field equal to
zero is stored as `null`, exactly like a missing one). -/
structure PointPayload where
  name : String
  description : Option String
  latitude : Option Rat
  longitude : Option Rat
  category : String
  rating : Option Rat
  price_level : Option String
  price_average : Option Rat
  price_currency : Option String
  address : Option String
  created_at : Option String
  updated_at : Option String
deriving DecidableEq

/-- `float(x) if x else None` on an optional numeric column. -/
def optNonzero : Option Rat → Option Rat
  | some x => if x = 0 then none else some x
  | none => none

/-- The metadata dictionary of `save_embedding_to_qdrant`. -/
def payloadOf (p : Place) : PointPayload :=
  { name := p.name
    description := p.description
    latitude := if p.latitude = 0 then none else some p.latitude
    longitude := if p.longitude = 0 then none else some p.longitude
    category := p.category
    rating := optNonzero p.rating
    price_level := p.price_level
    price_average := optNonzero p.price_average
    price_currency := p.price_currency
    address := p.address
    created_at := p.created_at
    updated_at := p.updated_at }

/-- A stored point of the Qdrant collection. -/
structure QPoint where
  id : String
  vector : List Rat
  payload : PointPayload
deriving DecidableEq

/-- `PlaceEmbeddingRepository.upsert_embedding`: insert or fully replace
the point at `pt.id`. -/
def qdrant_upsert (points : List QPoint) (pt : QPoint) : List QPoint :=
  if points.any (fun q => q.id = pt.id) then
    points.map (fun q => if q.id = pt.id then pt else q)
  else points ++ [pt]

/-- `PlaceEmbeddingQdrantGenerator.check_if_embedding_exists`: a
`client.retrieve` on the single id, nonempty result means present. -/
def check_if_embedding_exists (points : List QPoint) (place_id : String) : Bool :=
  points.any (fun q => q.id = place_id)

/-! ### Relational repository (`db/posgresql/repository/places.py`) -/

/-- `PlaceRepository.get_places_by_ids`: parse each id, skipping invalid
ones; with no parsable id return `[]` without querying; otherwise filter
the table to live rows whose id is among the parsed ids.  The SQL result
order is unspecified; it is modelled as the table order, which is
arbitrary relative to the input id order. -/
def get_places_by_ids (table : List Place) (place_ids : List String) : List Place :=
  let uuid_ids := place_ids.filterMap parseId
  if uuid_ids = [] then []
  else table.filter (fun p => uuid_ids.contains p.id && p.deleted_at.isNone)

/-- `PlaceRepository.get_all(skip, limit)` restricted to live rows. -/
def get_all (table : List Place) (skip limit : Nat) : List Place :=
  (((table.filter (fun p => p.deleted_at.isNone)).drop skip).take limit)

/-! ### Recommendation orchestrator (`api/v1/places/services.py`) -/

/-- The `PlaceRecommendation` response schema (`schema.py`). -/
structure PlaceRecommendation where
  id : Nat
  name : String
  description : Option String
  latitude : Rat
  longitude : Rat
  category : String
  rating : Option Rat
  price_level : Option String
  price_average : Option Rat
  price_currency : Option String
  address : Option String
  similarity_score : Rat
deriving DecidableEq

/-- The `RecommendationResponse` response schema (`schema.py`). -/
structure RecommendationResponse where
  query : String
  total_found : Nat
  recommendations : List PlaceRecommendation
deriving DecidableEq

/-- The empty response the service degrades to on any failure. -/
def emptyResponse (q : String) : RecommendationResponse :=
  { query := q, total_found := 0, recommendations := [] }

/-- The hard-coded `score_threshold=0.1` of the service's Qdrant call. -/
def score_threshold : Rat := mkRat 1 10

/-- The external dependencies of `PlaceRecommendationService.\
get_recommendations`; an `Except.error` models an exception raised at
that call site (all of them are caught by the service's outer handler). -/
structure ServiceDeps where
  health_connected : Bool
  provider : String → Except String (List Rat)
  backend : List Rat → Nat → Rat → Except String (List SearchHit)
  db : Except String (List Place)

/-- The dependency calls of one `get_recommendations` run, in order. -/
inductive Event where
  | healthCheck
  | embedCall
  | searchCall
  | dbFetch
deriving DecidableEq

/-- Python dict lookup on the comprehension
`{result["id"]: result["score"] for result in similar_places}`:
a later binding for the same key overwrites an earlier one. -/
def lookupScore (score_map : List (String × Rat)) (k : String) : Option Rat :=
  (score_map.reverse.find? (fun kv => kv.1 = k)).map (fun kv => kv.2)

/-- The `PlaceRecommendation(...)` constructed for one resolved place in
step 5 of the service: the score is looked up by `str(place.id)` in the
score map and defaults to `0.0`. -/
def fuseRecord (score_map : List (String × Rat)) (p : Place) :
    PlaceRecommendation :=
  { id := p.id
    name := p.name
    description := p.description
    latitude := p.latitude
    longitude := p.longitude
    category := p.category
    rating := p.rating
    price_level := p.price_level
    price_average := p.price_average
    price_currency := p.price_currency
    address := p.address
    similarity_score := (lookupScore score_map (idToString p.id)).getD 0 }

/-- Step 5 of the service: build the score map once, then join each
resolved `Place` with it. -/
def fuse (places : List Place) (similar_places : List SearchHit) :
    List PlaceRecommendation :=
  places.map (fuseRecord (similar_places.map (fun r => (r.id, r.score))))

/-- One insertion step of a stable descending sort: the new element goes
in front of the first element whose score is not strictly greater. -/
def insertByScore (x : PlaceRecommendation) :
    List PlaceRecommendation → List PlaceRecommendation
  | [] => [x]
  | y :: ys =>
    if x.similarity_score < y.similarity_score then y :: insertByScore x ys
    else x :: y :: ys

/-- Python `list.sort(key=lambda x: x.similarity_score, reverse=True)`:
stable, descending by score, ties keep their pre-sort relative order. -/
def sortByScoreDesc : List PlaceRecommendation → List PlaceRecommendation
  | [] => []
  | x :: xs => insertByScore x (sortByScoreDesc xs)

/-- `PlaceRecommendationService.get_recommendations`, instrumented with
the ordered list of dependency calls it performs.  Every failure path is
the corresponding `except` handler of the source, all of which return
the empty response. -/
def get_recommendations_run (deps : ServiceDeps) (description : String)
    (limit : Nat) : RecommendationResponse × List Event :=
  if !deps.health_connected then (emptyResponse description, [.healthCheck])
  else
    match deps.provider description with
    | .error _ => (emptyResponse description, [.healthCheck, .embedCall])
    | .ok query_embedding =>
      match search_similar_places deps.backend query_embedding limit score_threshold with
      | .error _ => (emptyResponse description, [.healthCheck, .embedCall, .searchCall])
      | .ok similar_places =>
        if similar_places = [] then
          (emptyResponse description, [.healthCheck, .embedCall, .searchCall])
        else
          let place_ids := similar_places.map (fun r => r.id)
          match deps.db with
          | .error _ =>
            (emptyResponse description, [.healthCheck, .embedCall, .searchCall, .dbFetch])
          | .ok table =>
            let places := get_places_by_ids table place_ids
            let recommendations := sortByScoreDesc (fuse places similar_places)
            ({ query := description
               total_found := recommendations.length
               recommendations := recommendations },
             [.healthCheck, .embedCall, .searchCall, .dbFetch])

/-- The value returned to the caller. -/
def get_recommendations (deps : ServiceDeps) (description : String)
    (limit : Nat) : RecommendationResponse :=
  (get_recommendations_run deps description limit).1

/-! ### Batch indexer (`create_embedings_qdrant.py`, `process_all_places`) -/

/-- The statistics dictionary of `process_all_places`. -/
structure Stats where
  total_places : Nat
  processed : Nat
  successful : Nat
  failed : Nat
  skipped : Nat
deriving DecidableEq

/-- The external dependencies of the batch indexer: the embedding
provider (per enriched text and per attempt index) and the possibility
of an exception inside the Qdrant upsert of a given point id. -/
structure IndexerDeps where
  provider : String → Nat → Except String (List Rat)
  saveFails : String → Bool

/-- `PlaceEmbeddingQdrantGenerator.save_embedding_to_qdrant`: build the
payload snapshot and upsert; a raised transport error is caught and
turned into `False` (`none` here), leaving the collection unchanged. -/
def save_embedding_to_qdrant (deps : IndexerDeps) (points : List QPoint)
    (p : Place) (embedding : List Rat) : Option (List QPoint) :=
  if deps.saveFails (idToString p.id) then none
  else some (qdrant_upsert points { id := idToString p.id, vector := embedding, payload := payloadOf p })

/-- The body of the `for place in places` loop of `process_all_places`:
one place updates the collection state and the statistics. -/
def process_place (deps : IndexerDeps) (skip_existing : Bool)
    (acc : List QPoint × Stats) (p : Place) : List QPoint × Stats :=
  let qs := acc.1
  let st0 := acc.2
  let st := { st0 with processed := st0.processed + 1 }
  if skip_existing && check_if_embedding_exists qs (idToString p.id) then
    (qs, { st with skipped := st.skipped + 1 })
  else
    let enriched_text := generate_enriched_text p
    if enriched_text = "" then (qs, { st with failed := st.failed + 1 })
    else
      match (generate_embedding (deps.provider enriched_text)).1 with
      | none => (qs, { st with failed := st.failed + 1 })
      | some embedding =>
        match save_embedding_to_qdrant deps qs p embedding with
        | some qs2 => (qs2, { st with successful := st.successful + 1 })
        | none => (qs, { st with failed := st.failed + 1 })

/-- The `while True` pagination loop of `process_all_places`, fetching
`get_all(skip=offset, limit=batch)` pages of the live rows until a page
is empty.  The structural `fuel` argument only makes the recursion
well-founded; `process_pages_eq_foldl` below shows the fuel chosen by
`process_all_places` is never exhausted, so the loop has exactly the
source's semantics. -/
def process_pages (deps : IndexerDeps) (skip_existing : Bool)
    (alive : List Place) (batch : Nat) :
    Nat → Nat → List QPoint × Stats → List QPoint × Stats
  | 0, _, acc => acc
  | fuel + 1, offset, acc =>
    let page := (alive.drop offset).take batch
    if page = [] then acc
    else
      process_pages deps skip_existing alive batch fuel (offset + batch)
        (page.foldl (process_place deps skip_existing) acc)

/-- `PlaceEmbeddingQdrantGenerator.process_all_places` over an unchanged
relational table `table` and an initial collection state `qs0`. -/
def process_all_places (deps : IndexerDeps) (table : List Place)
    (qs0 : List QPoint) (batch_size : Nat) (skip_existing : Bool) :
    List QPoint × Stats :=
  let alive := table.filter (fun p => p.deleted_at.isNone)
  process_pages deps skip_existing alive batch_size (alive.length + 1) 0
    (qs0,
     { total_places := alive.length, processed := 0, successful := 0,
       failed := 0, skipped := 0 })

/-! ## Supporting lemmas -/

/-- Unfolding of the three-attempt retry loop with `max_retries = 3`,
`retry_delay = 1`. -/
theorem generate_embedding_eq (provider : Nat → Except String (List Rat)) :
    generate_embedding provider =
      match provider 0 with
      | .ok e => (some e, [])
      | .error _ =>
        match provider 1 with
        | .ok e => (some e, [1])
        | .error _ =>
          match provider 2 with
          | .ok e => (some e, [1, 2])
          | .error _ => (none, [1, 2]) := by
  show generate_embedding_go provider 0 3 = _
  cases h0 : provider 0 <;> cases h1 : provider 1 <;> cases h2 : provider 2 <;>
    simp [generate_embedding_go, retry_delay, h0, h1, h2]

/-- Membership through one stable insertion step. -/
theorem mem_insertByScore {z x : PlaceRecommendation}
    {l : List PlaceRecommendation} :
    z ∈ insertByScore x l ↔ z = x ∨ z ∈ l := by
  induction l with
  | nil => simp [insertByScore]
  | cons y ys ih =>
    unfold insertByScore
    by_cases h : x.similarity_score < y.similarity_score
    · rw [if_pos h]
      simp only [List.mem_cons, ih]
      tauto
    · rw [if_neg h]
      simp only [List.mem_cons]

/-- Inserting into a descending-sorted list keeps it descending. -/
theorem sorted_insertByScore (x : PlaceRecommendation)
    {l : List PlaceRecommendation}
    (hl : List.Pairwise (fun a b => b.similarity_score ≤ a.similarity_score) l) :
    List.Pairwise (fun a b => b.similarity_score ≤ a.similarity_score)
      (insertByScore x l) := by
  induction l with
  | nil => simp [insertByScore]
  | cons y ys ih =>
    rw [List.pairwise_cons] at hl
    obtain ⟨hy, hys⟩ := hl
    unfold insertByScore
    by_cases h : x.similarity_score < y.similarity_score
    · rw [if_pos h, List.pairwise_cons]
      refine ⟨?_, ih hys⟩
      intro z hz
      rcases mem_insertByScore.mp hz with rfl | hz2
      · exact le_of_lt h
      · exact hy z hz2
    · rw [if_neg h, List.pairwise_cons]
      have hxy : y.similarity_score ≤ x.similarity_score := not_lt.mp h
      refine ⟨?_, List.pairwise_cons.mpr ⟨hy, hys⟩⟩
      intro z hz
      rcases List.mem_cons.mp hz with rfl | hz2
      · exact hxy
      · exact le_trans (hy z hz2) hxy

/-- The stable sort produces a descending list. -/
theorem sorted_sortByScoreDesc (l : List PlaceRecommendation) :
    List.Pairwise (fun a b => b.similarity_score ≤ a.similarity_score)
      (sortByScoreDesc l) := by
  induction l with
  | nil => simp [sortByScoreDesc]
  | cons x xs ih => exact sorted_insertByScore x ih

/-- The stable sort is a reordering: it has the same members. -/
theorem mem_sortByScoreDesc {z : PlaceRecommendation}
    {l : List PlaceRecommendation} :
    z ∈ sortByScoreDesc l ↔ z ∈ l := by
  induction l with
  | nil => simp [sortByScoreDesc]
  | cons x xs ih =>
    unfold sortByScoreDesc
    rw [mem_insertByScore, ih, List.mem_cons]

/-- Stability of one insertion step, expressed per score class. -/
theorem filter_insertByScore (x : PlaceRecommendation)
    (l : List PlaceRecommendation) (s : Rat) :
    (insertByScore x l).filter (fun z => decide (z.similarity_score = s))
      = if x.similarity_score = s
        then x :: l.filter (fun z => decide (z.similarity_score = s))
        else l.filter (fun z => decide (z.similarity_score = s)) := by
  induction l with
  | nil =>
    by_cases hx : x.similarity_score = s <;> simp [insertByScore, hx]
  | cons y ys ih =>
    unfold insertByScore
    by_cases h : x.similarity_score < y.similarity_score
    · rw [if_pos h]
      by_cases hx : x.similarity_score = s
      · have hy : ¬y.similarity_score = s := by
          intro hyeq
          have hyx : y.similarity_score = x.similarity_score := by rw [hyeq, hx]
          rw [hyx] at h
          exact lt_irrefl _ h
        simp [List.filter_cons, hx, hy, ih]
      · by_cases hy : y.similarity_score = s <;>
          simp [List.filter_cons, hx, hy, ih]
    · rw [if_neg h]
      by_cases hx : x.similarity_score = s <;>
        by_cases hy : y.similarity_score = s <;>
          simp [List.filter_cons, hx, hy]

/-- Stability of the whole sort: within each score class the sorted list
keeps exactly the pre-sort order. -/
theorem filter_sortByScoreDesc (l : List PlaceRecommendation) (s : Rat) :
    (sortByScoreDesc l).filter (fun z => decide (z.similarity_score = s))
      = l.filter (fun z => decide (z.similarity_score = s)) := by
  induction l with
  | nil => rfl
  | cons x xs ih =>
    unfold sortByScoreDesc
    rw [filter_insertByScore]
    by_cases hx : x.similarity_score = s <;> simp [List.filter_cons, hx, ih]

/-- Membership in the relational bulk fetch: a returned row is a live
table row whose id is the parse of one of the requested id strings. -/
theorem mem_get_places_by_ids {p : Place} {table : List Place}
    {ids : List String} :
    p ∈ get_places_by_ids table ids ↔
      p ∈ table ∧ p.deleted_at = none ∧ ∃ s, s ∈ ids ∧ parseId s = some p.id := by
  simp only [get_places_by_ids]
  by_cases hu : ids.filterMap parseId = []
  · rw [if_pos hu]
    constructor
    · intro h
      exact absurd h (List.not_mem_nil p)
    · rintro ⟨_, _, s, hs, hps⟩
      have hmem : p.id ∈ ids.filterMap parseId :=
        List.mem_filterMap.mpr ⟨s, hs, hps⟩
      rw [hu] at hmem
      exact absurd hmem (List.not_mem_nil _)
  · rw [if_neg hu, List.mem_filter]
    simp only [Bool.and_eq_true, Option.isNone_iff_eq_none]
    constructor
    · rintro ⟨hpt, hcontains, hdel⟩
      have hmem : p.id ∈ ids.filterMap parseId := by simpa using hcontains
      rw [List.mem_filterMap] at hmem
      obtain ⟨s, hs, hps⟩ := hmem
      exact ⟨hpt, hdel, s, hs, hps⟩
    · rintro ⟨hpt, hdel, s, hs, hps⟩
      refine ⟨hpt, ?_, hdel⟩
      have hmem : p.id ∈ ids.filterMap parseId :=
        List.mem_filterMap.mpr ⟨s, hs, hps⟩
      simpa using hmem

/-- A key present in the score map is found by the dict lookup, and the
value found is one of the map's bindings. -/
theorem lookupScore_mem (sm : List (String × Rat)) (k : String)
    (hk : k ∈ sm.map Prod.fst) :
    ∃ v, lookupScore sm k = some v ∧ (k, v) ∈ sm := by
  rw [List.mem_map] at hk
  obtain ⟨kv, hkv, hfst⟩ := hk
  have hrev : kv ∈ sm.reverse := List.mem_reverse.mpr hkv
  have hsome : (sm.reverse.find? (fun kv2 => kv2.1 = k)).isSome := by
    rw [List.find?_isSome]
    exact ⟨kv, hrev, by simp [hfst]⟩
  obtain ⟨w, hw⟩ := Option.isSome_iff_exists.mp hsome
  have hwk : w.1 = k := by
    have hpw := List.find?_some hw
    simpa using hpw
  have hwmem : w ∈ sm := List.mem_reverse.mp (List.mem_of_find?_eq_some hw)
  refine ⟨w.2, ?_, ?_⟩
  · unfold lookupScore
    rw [hw]
    rfl
  · rw [← hwk]
    exact hwmem

/-- The happy path of the service: health up, embedding and search
succeed with a nonempty hit list, relational fetch succeeds. -/
theorem run_success (deps : ServiceDeps) (d : String) (l : Nat)
    (emb : List Rat) (sims : List SearchHit) (table : List Place)
    (hh : deps.health_connected = true) (hp : deps.provider d = .ok emb)
    (hs : search_similar_places deps.backend emb l score_threshold = .ok sims)
    (hne : sims ≠ []) (hdb : deps.db = .ok table) :
    get_recommendations deps d l =
      { query := d
        total_found :=
          (sortByScoreDesc
            (fuse (get_places_by_ids table (sims.map SearchHit.id)) sims)).length
        recommendations :=
          sortByScoreDesc
            (fuse (get_places_by_ids table (sims.map SearchHit.id)) sims) } := by
  simp [get_recommendations, get_recommendations_run, hh, hp, hs, hne, hdb]

/-- Whatever the dependencies do, the returned list is descending by
similarity score. -/
theorem recommendations_sorted (deps : ServiceDeps) (d : String) (l : Nat) :
    List.Pairwise (fun a b => b.similarity_score ≤ a.similarity_score)
      (get_recommendations deps d l).recommendations := by
  unfold get_recommendations get_recommendations_run
  cases hc : deps.health_connected
  · exact List.Pairwise.nil
  · cases hp : deps.provider d with
    | error e => exact List.Pairwise.nil
    | ok emb =>
      cases hs : search_similar_places deps.backend emb l score_threshold with
      | error e =>
        simp only [hs]
        exact List.Pairwise.nil
      | ok sims =>
        simp only [hs]
        by_cases hne : sims = []
        · rw [if_pos hne]
          exact List.Pairwise.nil
        · rw [if_neg hne]
          cases hdb : deps.db with
          | error e =>
            simp only [hdb]
            exact List.Pairwise.nil
          | ok table =>
            simp only [hdb]
            exact sorted_sortByScoreDesc _

/-- On a successful run, every returned recommendation is the fusion of
a live table row resolved from one of the searched id strings. -/
theorem recommendations_shape (deps : ServiceDeps) (d : String) (l : Nat)
    (emb : List Rat) (sims : List SearchHit) (table : List Place)
    (hh : deps.health_connected = true) (hp : deps.provider d = .ok emb)
    (hs : search_similar_places deps.backend emb l score_threshold = .ok sims)
    (hdb : deps.db = .ok table) :
    ∀ r ∈ (get_recommendations deps d l).recommendations,
      ∃ p, p ∈ table ∧ p.deleted_at = none ∧
        (∃ s, s ∈ sims.map SearchHit.id ∧ parseId s = some p.id) ∧
        r = fuseRecord (sims.map (fun h2 => (h2.id, h2.score))) p := by
  intro r hr
  by_cases hne : sims = []
  case pos =>
    have hempty : get_recommendations deps d l = emptyResponse d := by
      simp [get_recommendations, get_recommendations_run, hh, hp, hs, hne]
    rw [hempty] at hr
    exact absurd hr (List.not_mem_nil r)
  case neg =>
    rw [run_success deps d l emb sims table hh hp hs hne hdb] at hr
    simp only at hr
    rw [mem_sortByScoreDesc] at hr
    unfold fuse at hr
    rw [List.mem_map] at hr
    obtain ⟨p, hpmem, hpr⟩ := hr
    rw [mem_get_places_by_ids] at hpmem
    obtain ⟨hpt, hpd, s, hsmem, hps⟩ := hpmem
    exact ⟨p, hpt, hpd, ⟨s, hsmem, hps⟩, hpr.symm⟩

/-- An upsert keeps every id that was already present. -/
theorem check_qdrant_upsert_mono (points : List QPoint) (pt : QPoint)
    (i : String) (h : check_if_embedding_exists points i = true) :
    check_if_embedding_exists (qdrant_upsert points pt) i = true := by
  unfold check_if_embedding_exists at h ⊢
  unfold qdrant_upsert
  rw [List.any_eq_true] at h
  obtain ⟨q, hq, hqi⟩ := h
  by_cases hrep : points.any (fun q2 => q2.id = pt.id) = true
  · rw [if_pos hrep, List.any_eq_true]
    refine ⟨if q.id = pt.id then pt else q, List.mem_map.mpr ⟨q, hq, rfl⟩, ?_⟩
    by_cases hqp : q.id = pt.id
    · rw [if_pos hqp]
      simp only [decide_eq_true_eq] at hqi ⊢
      rw [← hqp]
      exact hqi
    · rw [if_neg hqp]
      exact hqi
  · rw [if_neg hrep, List.any_eq_true]
    exact ⟨q, List.mem_append_left _ hq, hqi⟩

/-- After an upsert, the upserted id is present. -/
theorem check_qdrant_upsert_self (points : List QPoint) (pt : QPoint) :
    check_if_embedding_exists (qdrant_upsert points pt) pt.id = true := by
  unfold check_if_embedding_exists qdrant_upsert
  by_cases hrep : points.any (fun q2 => q2.id = pt.id) = true
  · rw [if_pos hrep, List.any_eq_true]
    rw [List.any_eq_true] at hrep
    obtain ⟨q, hq, hqp⟩ := hrep
    refine ⟨if q.id = pt.id then pt else q, List.mem_map.mpr ⟨q, hq, rfl⟩, ?_⟩
    simp only [decide_eq_true_eq] at hqp
    rw [if_pos hqp]
    simp
  · rw [if_neg hrep, List.any_eq_true]
    exact ⟨pt, List.mem_append_right _ (List.mem_singleton.mpr rfl), by simp⟩

/-- Trichotomy for one record of the batch loop: it is skipped (with the
point already present), or counted failed with the collection unchanged,
or counted successful with its point upserted. -/
theorem process_place_cases (deps : IndexerDeps) (se : Bool)
    (acc : List QPoint × Stats) (p : Place) :
    (process_place deps se acc p
        = (acc.1,
           { acc.2 with
             processed := acc.2.processed + 1, skipped := acc.2.skipped + 1 })
      ∧ check_if_embedding_exists acc.1 (idToString p.id) = true) ∨
    ((process_place deps se acc p).1 = acc.1 ∧
      (process_place deps se acc p).2
        = { acc.2 with
            processed := acc.2.processed + 1, failed := acc.2.failed + 1 }) ∨
    (∃ emb, (process_place deps se acc p).1
        = qdrant_upsert acc.1
            { id := idToString p.id, vector := emb, payload := payloadOf p }
      ∧ (process_place deps se acc p).2
        = { acc.2 with
            processed := acc.2.processed + 1,
            successful := acc.2.successful + 1 }) := by
  simp only [process_place]
  by_cases hc : (se && check_if_embedding_exists acc.1 (idToString p.id)) = true
  · rw [if_pos hc]
    exact Or.inl ⟨rfl, (Bool.and_eq_true _ _ |>.mp hc).2⟩
  · rw [if_neg hc]
    by_cases ht : generate_enriched_text p = ""
    · rw [if_pos ht]
      exact Or.inr (Or.inl ⟨rfl, rfl⟩)
    · rw [if_neg ht]
      cases hge : (generate_embedding (deps.provider (generate_enriched_text p))).1 with
      | none =>
        refine Or.inr (Or.inl ⟨?_, ?_⟩) <;> simp [hge]
      | some emb =>
        by_cases hsf : deps.saveFails (idToString p.id) = true
        · refine Or.inr (Or.inl ⟨?_, ?_⟩) <;>
            simp [hge, save_embedding_to_qdrant, hsf]
        · refine Or.inr (Or.inr ⟨emb, ?_, ?_⟩) <;>
            simp [hge, save_embedding_to_qdrant, hsf]

/-- With `skip_existing` and the point present, a record is skipped. -/
theorem process_place_skip (deps : IndexerDeps) (acc : List QPoint × Stats)
    (p : Place)
    (h : check_if_embedding_exists acc.1 (idToString p.id) = true) :
    process_place deps true acc p
      = (acc.1,
         { acc.2 with
           processed := acc.2.processed + 1, skipped := acc.2.skipped + 1 }) := by
  simp only [process_place, h, Bool.true_and, if_true]

/-- The failure counter never decreases across one record. -/
theorem process_place_failed_le (deps : IndexerDeps) (se : Bool)
    (acc : List QPoint × Stats) (p : Place) :
    acc.2.failed ≤ (process_place deps se acc p).2.failed := by
  rcases process_place_cases deps se acc p with ⟨heq, _⟩ | ⟨_, hst⟩ | ⟨emb, _, hst⟩
  · rw [heq]
  · rw [hst]
    exact Nat.le_succ _
  · rw [hst]

/-- Present ids stay present across one record. -/
theorem process_place_check_mono (deps : IndexerDeps) (se : Bool)
    (acc : List QPoint × Stats) (p : Place) (i : String)
    (h : check_if_embedding_exists acc.1 i = true) :
    check_if_embedding_exists (process_place deps se acc p).1 i = true := by
  rcases process_place_cases deps se acc p with ⟨heq, _⟩ | ⟨hst, _⟩ | ⟨emb, hst, _⟩
  · rw [heq]
    exact h
  · rw [hst]
    exact h
  · rw [hst]
    exact check_qdrant_upsert_mono _ _ _ h

/-- Present ids stay present across a whole page fold. -/
theorem foldl_check_mono (deps : IndexerDeps) (se : Bool) (l : List Place)
    (acc : List QPoint × Stats) (i : String)
    (h : check_if_embedding_exists acc.1 i = true) :
    check_if_embedding_exists
      ((l.foldl (process_place deps se) acc)).1 i = true := by
  induction l generalizing acc with
  | nil => exact h
  | cons q qs ih => exact ih _ (process_place_check_mono deps se acc q i h)

/-- The failure counter never decreases across a fold. -/
theorem foldl_failed_le (deps : IndexerDeps) (se : Bool) (l : List Place)
    (acc : List QPoint × Stats) :
    acc.2.failed ≤ ((l.foldl (process_place deps se) acc)).2.failed := by
  induction l generalizing acc with
  | nil => exact le_refl _
  | cons q qs ih =>
    exact le_trans (process_place_failed_le deps se acc q) (ih _)

/-- If a fold produced no new failure, every processed record's id is
present in the final collection state: each record was either skipped
(its point already existed, and points are never removed) or upserted. -/
theorem foldl_ids_present (deps : IndexerDeps) (se : Bool) (l : List Place)
    (acc : List QPoint × Stats)
    (h : ((l.foldl (process_place deps se) acc)).2.failed = acc.2.failed) :
    ∀ p ∈ l, check_if_embedding_exists
        ((l.foldl (process_place deps se) acc)).1 (idToString p.id) = true := by
  induction l generalizing acc with
  | nil =>
    intro p hp
    exact absurd hp (List.not_mem_nil p)
  | cons q qs ih =>
    intro p hp
    rw [List.foldl_cons] at h ⊢
    have hstep : acc.2.failed ≤ (process_place deps se acc q).2.failed :=
      process_place_failed_le deps se acc q
    have hrest : (process_place deps se acc q).2.failed
        ≤ ((qs.foldl (process_place deps se)
              (process_place deps se acc q))).2.failed :=
      foldl_failed_le deps se qs _
    have heq1 : (process_place deps se acc q).2.failed = acc.2.failed := by
      omega
    rcases List.mem_cons.mp hp with rfl | hp2
    · rcases process_place_cases deps se acc p with
        ⟨heq, hchk⟩ | ⟨_, hst⟩ | ⟨emb, hst, _⟩
      · refine foldl_check_mono deps se qs _ _ ?_
        rw [heq]
        exact hchk
      · exfalso
        rw [hst] at heq1
        simp at heq1
      · refine foldl_check_mono deps se qs _ _ ?_
        rw [hst]
        exact check_qdrant_upsert_self _ _
    · exact ih _ (h.trans heq1.symm) p hp2

/-- When every record's point is already present, a fold with
`skip_existing` only counts: the collection is untouched, everything is
processed and skipped. -/
theorem foldl_all_skip (deps : IndexerDeps) (l : List Place)
    (acc : List QPoint × Stats)
    (h : ∀ p ∈ l, check_if_embedding_exists acc.1 (idToString p.id) = true) :
    l.foldl (process_place deps true) acc
      = (acc.1,
         { acc.2 with
           processed := acc.2.processed + l.length,
           skipped := acc.2.skipped + l.length }) := by
  induction l generalizing acc with
  | nil => rfl
  | cons q qs ih =>
    rw [List.foldl_cons, process_place_skip deps acc q (h q (List.mem_cons_self q qs)), ih]
    · simp only [Prod.mk.injEq, Stats.mk.injEq, List.length_cons]
      refine ⟨trivial, trivial, ?_, trivial, trivial, ?_⟩ <;> omega
    · intro p hp
      exact h p (List.mem_cons_of_mem q hp)

/-- When the fuel dominates the number of remaining live rows, the
pagination loop is exactly a fold over the remaining rows. -/
theorem process_pages_eq_foldl (deps : IndexerDeps) (se : Bool)
    (alive : List Place) (batch : Nat) (hb : 1 ≤ batch) :
    ∀ fuel offset acc, alive.length - offset < fuel →
      process_pages deps se alive batch fuel offset acc
        = (alive.drop offset).foldl (process_place deps se) acc := by
  intro fuel
  induction fuel with
  | zero =>
    intro offset acc h
    omega
  | succ fuel ih =>
    intro offset acc h
    simp only [process_pages]
    by_cases hpage : (alive.drop offset).take batch = []
    · rw [if_pos hpage]
      rcases List.take_eq_nil_iff.mp hpage with hb0 | hdrop
      · omega
      · rw [hdrop]
        rfl
    · rw [if_neg hpage]
      have hdropne : alive.drop offset ≠ [] := by
        intro hd
        apply hpage
        rw [hd, List.take_nil]
      have hoff : offset < alive.length := by
        by_contra hge
        push_neg at hge
        exact hdropne (List.drop_eq_nil_iff.mpr hge)
      rw [ih (offset + batch) _ (by omega)]
      conv_rhs => rw [← List.take_append_drop batch (alive.drop offset)]
      rw [List.foldl_append, List.drop_drop]

/-! ## Claims -/

/-- C1: for every description and limit, each dependency failure of the
pipeline (vector index unreachable at the health check, embedding
provider raising, vector search raising, relational fetch raising)
degrades `get_recommendations` to the well-formed empty response with
`total_found = 0` and no recommendations; the function is total, so no
exception ever reaches the caller. -/
theorem C1_fail_open (deps : ServiceDeps) (d : String) (l : Nat) :
    ((emptyResponse d).total_found = 0 ∧ (emptyResponse d).recommendations = []
      ∧ (emptyResponse d).query = d) ∧
    (deps.health_connected = false → get_recommendations deps d l = emptyResponse d) ∧
    (∀ e, deps.provider d = .error e → get_recommendations deps d l = emptyResponse d) ∧
    (∀ emb e, deps.provider d = .ok emb →
      search_similar_places deps.backend emb l score_threshold = .error e →
      get_recommendations deps d l = emptyResponse d) ∧
    (∀ e, deps.db = .error e → get_recommendations deps d l = emptyResponse d) := by
  refine ⟨⟨rfl, rfl, rfl⟩, ?_, ?_, ?_, ?_⟩
  · intro h
    simp [get_recommendations, get_recommendations_run, h]
  · intro e he
    cases hc : deps.health_connected <;>
      simp [get_recommendations, get_recommendations_run, hc, he]
  · intro emb e hemb hs
    cases hc : deps.health_connected <;>
      simp [get_recommendations, get_recommendations_run, hc, hemb, hs]
  · intro e he
    cases hc : deps.health_connected
    · simp [get_recommendations, get_recommendations_run, hc]
    · cases hp : deps.provider d with
      | error _ => simp [get_recommendations, get_recommendations_run, hc, hp]
      | ok emb =>
        cases hs : search_similar_places deps.backend emb l score_threshold with
        | error _ => simp [get_recommendations, get_recommendations_run, hc, hp, hs]
        | ok sims =>
          by_cases hse : sims = [] <;>
            simp [get_recommendations, get_recommendations_run, hc, hp, hs, hse, he]

/-- Concrete dependencies for the C1 witness: every dependency fails. -/
def depsAllDown : ServiceDeps :=
  { health_connected := false
    provider := fun _ => .error "provider down"
    backend := fun _ _ _ => .error "qdrant down"
    db := .error "postgres down" }

/-- Witness for C1 at concrete failing dependencies. -/
theorem C1_fail_open_witness :
    get_recommendations depsAllDown "cafe" 5 = emptyResponse "cafe" ∧
    get_recommendations depsAllDown "cafe" 5 =
      { query := "cafe", total_found := 0, recommendations := [] } :=
  ⟨(C1_fail_open depsAllDown "cafe" 5).2.1 rfl,
   ((C1_fail_open depsAllDown "cafe" 5).2.2.2.2 "postgres down" rfl).trans (by decide)⟩

/-- C8: the vector search fails fast with the dimension-mismatch error
exactly when the query vector's length differs from the configured 1536;
a correct-length vector is handed to the backend unmodified (neither
truncated nor padded) and can only produce backend-tagged outcomes,
never the dimension error. -/
theorem C8_dimension_mismatch
    (backend : List Rat → Nat → Rat → Except String (List SearchHit))
    (q : List Rat) (limit : Nat) (t : Rat) :
    (q.length ≠ vector_size →
      search_similar_places backend q limit t =
        .error (.dimensionMismatch vector_size q.length)) ∧
    (q.length = vector_size →
      search_similar_places backend q limit t =
        (backend q limit t).mapError SearchError.backend) ∧
    (q.length = vector_size → ∀ expected got,
      search_similar_places backend q limit t ≠
        .error (.dimensionMismatch expected got)) := by
  refine ⟨?_, ?_, ?_⟩
  · intro h
    simp [search_similar_places, h]
  · intro h
    cases hb : backend q limit t <;>
      simp [search_similar_places, h, hb, Except.mapError]
  · intro h expected got
    cases hb : backend q limit t <;>
      simp [search_similar_places, h, hb]

/-- A concrete backend for the C8 witness. -/
def backendW : List Rat → Nat → Rat → Except String (List SearchHit) :=
  fun _ _ _ => .ok []

/-- Witness for C8: a 3-dimensional vector is rejected with the
dimension error; a 1536-dimensional one reaches the backend as is. -/
theorem C8_dimension_mismatch_witness :
    search_similar_places backendW [0, 0, 0] 5 0 =
      .error (.dimensionMismatch 1536 3) ∧
    search_similar_places backendW (List.replicate 1536 0) 5 0 =
      (backendW (List.replicate 1536 0) 5 0).mapError SearchError.backend :=
  ⟨(C8_dimension_mismatch backendW [0, 0, 0] 5 0).1 (by decide),
   (C8_dimension_mismatch backendW (List.replicate 1536 0) 5 0).2.1
     (by rw [List.length_replicate, vector_size])⟩

/-- C9: the enriched text depends only on the name, category,
description, rating, price level and address of the place: two places
agreeing on those fields (whatever their id, coordinates, prices or
timestamps) yield the same text, so re-running the pure enrichment on
the same input always reproduces it byte for byte. -/
theorem C9_enrichment_deterministic (p1 p2 : Place)
    (hname : p1.name = p2.name) (hcat : p1.category = p2.category)
    (hdesc : p1.description = p2.description)
    (hrating : p1.rating = p2.rating)
    (hprice : p1.price_level = p2.price_level)
    (haddr : p1.address = p2.address) :
    generate_enriched_text p1 = generate_enriched_text p2 := by
  unfold generate_enriched_text
  rw [hname, hcat, hdesc, hrating, hprice, haddr]

/-- First concrete place for the C9 witness. -/
def placeW1 : Place :=
  { id := 1, name := "Cafe Verde", description := some "Tranquilo",
    latitude := 19, longitude := -99, category := "cafeteria",
    rating := some 4, price_level := some "MEDIUM", price_average := some 150,
    price_currency := some "MXN", address := some "Colonia Roma, CDMX",
    created_at := none, updated_at := none, deleted_at := none }

/-- Second concrete place for the C9 witness: same enrichment inputs,
different id, coordinates and bookkeeping fields. -/
def placeW2 : Place :=
  { id := 2, name := "Cafe Verde", description := some "Tranquilo",
    latitude := 20, longitude := -98, category := "cafeteria",
    rating := some 4, price_level := some "MEDIUM", price_average := none,
    price_currency := none, address := some "Colonia Roma, CDMX",
    created_at := some "2024-01-01T00:00:00", updated_at := none,
    deleted_at := none }

/-- Witness for C9 at two concrete places. -/
theorem C9_enrichment_deterministic_witness :
    generate_enriched_text placeW1 = generate_enriched_text placeW2 :=
  C9_enrichment_deterministic placeW1 placeW2 rfl rfl rfl rfl rfl rfl

/-- C10: the run trace always begins with the health check; when the
health check reports the index as not connected the service returns the
empty response with a trace containing no embedding call, and the result
is the same whatever the embedding provider is — the provider is never
invoked on that path. -/
theorem C10_health_gate (deps : ServiceDeps) (d : String) (l : Nat) :
    ((get_recommendations_run deps d l).2.head? = some Event.healthCheck) ∧
    (deps.health_connected = false →
      get_recommendations_run deps d l = (emptyResponse d, [Event.healthCheck]) ∧
      ∀ provider2,
        get_recommendations_run { deps with provider := provider2 } d l
          = (emptyResponse d, [Event.healthCheck])) := by
  constructor
  · cases hc : deps.health_connected
    · simp [get_recommendations_run, hc]
    · cases hp : deps.provider d with
      | error _ => simp [get_recommendations_run, hc, hp]
      | ok emb =>
        cases hs : search_similar_places deps.backend emb l score_threshold with
        | error _ => simp [get_recommendations_run, hc, hp, hs]
        | ok sims =>
          by_cases hse : sims = []
          · simp [get_recommendations_run, hc, hp, hs, hse]
          · cases hdb : deps.db <;>
              simp [get_recommendations_run, hc, hp, hs, hse, hdb]
  · intro h
    refine ⟨?_, ?_⟩
    · simp [get_recommendations_run, h]
    · intro provider2
      simp [get_recommendations_run, h]

/-- Concrete dependencies for the C10 witness: the index is down but the
provider would answer. -/
def depsHealthDown : ServiceDeps :=
  { health_connected := false
    provider := fun _ => .ok (List.replicate 1536 0)
    backend := fun _ _ _ => .ok []
    db := .ok [] }

/-- Witness for C10 at concrete dependencies. -/
theorem C10_health_gate_witness :
    get_recommendations_run depsHealthDown "parque" 3
      = (emptyResponse "parque", [Event.healthCheck]) ∧
    get_recommendations_run
        { depsHealthDown with provider := fun _ => .error "never called" }
        "parque" 3
      = (emptyResponse "parque", [Event.healthCheck]) :=
  ⟨((C10_health_gate depsHealthDown "parque" 3).2 rfl).1,
   ((C10_health_gate depsHealthDown "parque" 3).2 rfl).2 (fun _ => .error "never called")⟩

/-- C6 (as stated) is refuted on the code: after all three attempts fail
the retry loop returns the bare sentinel `None`.  Two providers whose
last attempts fail with different underlying errors produce the same
return value, so the failure value cannot carry the last underlying
error. -/
def provFailsA : Nat → Except String (List Rat) :=
  fun i => if i < 3 then .error (toString i) else .ok [1]

/-- Second failing provider, with different error payloads. -/
def provFailsB : Nat → Except String (List Rat) :=
  fun i => if i < 3 then .error (toString (i + 10)) else .ok [1]

/-- Counterexample for C6: both failing providers yield the identical
result `(none, sleeps)` although their last underlying errors differ, so
the exhausted-retries outcome does not carry the last underlying error;
it is the error-free sentinel `None`. -/
theorem C6_counterexample :
    generate_embedding provFailsA = (none, [1, 2]) ∧
    generate_embedding provFailsB = (none, [1, 2]) ∧
    provFailsA 2 = Except.error "2" ∧
    provFailsB 2 = Except.error "12" ∧
    ("2" : String) ≠ "12" :=
  ⟨rfl, rfl, rfl, rfl, by decide⟩

/-- C6 (amended): the embed operation performs at most `max_retries = 3`
provider attempts, sleeping `retry_delay * attempt` (1-based attempt
index) between consecutive attempts; when all three attempts fail it
returns `none` — a failure sentinel carrying no error payload — and it
never fabricates a success: a returned embedding always is the value of
one of the first three attempts. -/
theorem C6_retry_policy (provider : Nat → Except String (List Rat)) :
    ((∀ i, i < max_retries → ∃ e, provider i = .error e) →
      generate_embedding provider = (none, [retry_delay * 1, retry_delay * 2])) ∧
    (∀ emb sleeps, generate_embedding provider = (some emb, sleeps) →
      ∃ i, i < max_retries ∧ provider i = .ok emb) ∧
    (∀ q, (∀ i, i < max_retries → provider i = q i) →
      generate_embedding provider = generate_embedding q) := by
  refine ⟨?_, ?_, ?_⟩
  · intro h
    obtain ⟨e0, h0⟩ := h 0 (by decide)
    obtain ⟨e1, h1⟩ := h 1 (by decide)
    obtain ⟨e2, h2⟩ := h 2 (by decide)
    rw [generate_embedding_eq, h0, h1, h2]
    simp [retry_delay]
  · intro emb sleeps h
    rw [generate_embedding_eq] at h
    cases h0 : provider 0 with
    | ok e =>
      rw [h0] at h
      exact ⟨0, by decide, by rw [h0]; simp_all⟩
    | error _ =>
      rw [h0] at h
      cases h1 : provider 1 with
      | ok e =>
        rw [h1] at h
        exact ⟨1, by decide, by rw [h1]; simp_all⟩
      | error _ =>
        rw [h1] at h
        cases h2 : provider 2 with
        | ok e =>
          rw [h2] at h
          exact ⟨2, by decide, by rw [h2]; simp_all⟩
        | error _ =>
          rw [h2] at h
          simp at h
  · intro q h
    rw [generate_embedding_eq provider, generate_embedding_eq q,
      h 0 (by decide), h 1 (by decide), h 2 (by decide)]

/-- A provider failing every attempt with the same error. -/
def provAlwaysFails : Nat → Except String (List Rat) :=
  fun _ => .error "rate limited"

/-- Witness for the amended C6 at a concrete always-failing provider. -/
theorem C6_retry_policy_witness :
    generate_embedding provAlwaysFails = (none, [retry_delay * 1, retry_delay * 2]) :=
  (C6_retry_policy provAlwaysFails).1 (fun _ _ => ⟨"rate limited", rfl⟩)

/-- C5: a second `process_all_places` run with `skip_existing = true`
over an unchanged relational store, after a first run that left no
failed record, newly succeeds on zero records: every live record is
counted as skipped because the vector index already holds a point at
its id, and the collection state is unchanged. -/
theorem C5_idempotent_reindex (deps1 deps2 : IndexerDeps)
    (table : List Place) (qs0 : List QPoint) (b1 b2 : Nat) (se1 : Bool)
    (hb1 : 1 ≤ b1) (hb2 : 1 ≤ b2)
    (hfail : (process_all_places deps1 table qs0 b1 se1).2.failed = 0) :
    process_all_places deps2 table
        (process_all_places deps1 table qs0 b1 se1).1 b2 true
      = ((process_all_places deps1 table qs0 b1 se1).1,
         { total_places := (table.filter (fun p => p.deleted_at.isNone)).length
           processed := (table.filter (fun p => p.deleted_at.isNone)).length
           successful := 0
           failed := 0
           skipped := (table.filter (fun p => p.deleted_at.isNone)).length }) := by
  set alive : List Place := table.filter (fun p => p.deleted_at.isNone) with halive
  set st0 : Stats :=
    { total_places := alive.length, processed := 0, successful := 0,
      failed := 0, skipped := 0 } with hst0
  have hrw : ∀ (deps : IndexerDeps) (b : Nat) (se : Bool) (qs : List QPoint),
      1 ≤ b →
      process_all_places deps table qs b se
        = alive.foldl (process_place deps se) (qs, st0) := by
    intro deps b se qs hbb
    simp only [process_all_places, ← halive, ← hst0]
    rw [process_pages_eq_foldl deps se alive b hbb (alive.length + 1) 0 (qs, st0)
        (by omega),
      List.drop_zero]
  have hfail2 :
      (alive.foldl (process_place deps1 se1) (qs0, st0)).2.failed
        = (qs0, st0).2.failed := by
    rw [← hrw deps1 b1 se1 qs0 hb1]
    exact hfail
  have hids := foldl_ids_present deps1 se1 alive (qs0, st0) hfail2
  rw [hrw deps1 b1 se1 qs0 hb1,
    hrw deps2 b2 true ((alive.foldl (process_place deps1 se1) (qs0, st0)).1) hb2,
    foldl_all_skip deps2 alive
      (((alive.foldl (process_place deps1 se1) (qs0, st0)).1, st0)) hids]
  simp only [Prod.mk.injEq, Stats.mk.injEq, hst0]
  refine ⟨trivial, trivial, ?_, trivial, trivial, ?_⟩ <;> omega

/-- Ids of a response, for closed statements. -/
def recIds (resp : RecommendationResponse) : List Nat :=
  resp.recommendations.map (fun r => r.id)

/-- Scores of a response, for closed statements. -/
def recScores (resp : RecommendationResponse) : List Rat :=
  resp.recommendations.map (fun r => r.similarity_score)

/-- A live place with id 1. -/
def placeA : Place :=
  { id := 1, name := "A", description := none, latitude := 1, longitude := 1,
    category := "bar", rating := none, price_level := none,
    price_average := none, price_currency := none, address := none,
    created_at := none, updated_at := none, deleted_at := none }

/-- A live place with id 2. -/
def placeB : Place := { placeA with id := 2, name := "B" }

/-- Batch-indexer dependencies that always succeed. -/
def idxDepsOk : IndexerDeps :=
  { provider := fun _ _ => .ok [1], saveFails := fun _ => false }

/-- A one-row relational store for the C5 witness. -/
def tableW : List Place := [placeA]

/-- Witness for C5: a first run over one live row fails nothing, and the
second run with `skip_existing` skips the single record, succeeding on
zero records and leaving the collection unchanged. -/
theorem C5_idempotent_reindex_witness :
    (process_all_places idxDepsOk tableW [] 1 true).2.failed = 0 ∧
    process_all_places idxDepsOk tableW
        (process_all_places idxDepsOk tableW [] 1 true).1 1 true
      = ((process_all_places idxDepsOk tableW [] 1 true).1,
         { total_places := 1, processed := 1, successful := 0, failed := 0,
           skipped := 1 }) :=
  ⟨by decide,
   (C5_idempotent_reindex idxDepsOk idxDepsOk tableW [] 1 1 true
      (by decide) (by decide) (by decide)).trans (by decide)⟩

/-- A vector-index answer with two equal-score hits, id 1 first. -/
def simsTie : List SearchHit :=
  [{ id := "1", score := 1, payload := [] },
   { id := "2", score := 1, payload := [] }]

/-- Healthy dependencies whose vector index returns `simsTie` and whose
relational store returns the rows in the opposite order. -/
def depsTie : ServiceDeps :=
  { health_connected := true
    provider := fun _ => .ok (List.replicate 1536 0)
    backend := fun _ _ _ => .ok simsTie
    db := .ok [placeB, placeA] }

set_option maxRecDepth 100000 in
/-- Counterexample for C2's tie clause: the vector index returns the
equal-score hits in order id 1, id 2, but the relational fetch returns
the rows in order id 2, id 1 and the stable sort keeps that order, so
the response lists ids `[2, 1]` — the reverse of the vector index's
return order. -/
theorem C2_counterexample :
    depsTie.backend (List.replicate 1536 0) 5 score_threshold = .ok simsTie ∧
    simsTie.map SearchHit.id = ["1", "2"] ∧
    simsTie.map (fun h2 => h2.score) = [1, 1] ∧
    recIds (get_recommendations depsTie "q" 5) = [2, 1] ∧
    recScores (get_recommendations depsTie "q" 5) = [1, 1] :=
  ⟨rfl, rfl, rfl, rfl, rfl⟩

/-- C2 (amended): adjacent similarity scores of any response are
descending, and recommendations with equal scores appear in the
relational fetch's return order — the sort key is the score alone and
the sort is stable, but the pre-sort order comes from the relational
store, not from the vector index. -/
theorem C2_ranking (deps : ServiceDeps) (d : String) (l : Nat) :
    (∀ i, ∀ h : i + 1 < (get_recommendations deps d l).recommendations.length,
      ((get_recommendations deps d l).recommendations.get
          ⟨i + 1, h⟩).similarity_score
        ≤ ((get_recommendations deps d l).recommendations.get
            ⟨i, Nat.lt_of_succ_lt h⟩).similarity_score) ∧
    (∀ emb sims table, deps.health_connected = true →
      deps.provider d = .ok emb →
      search_similar_places deps.backend emb l score_threshold = .ok sims →
      sims ≠ [] → deps.db = .ok table →
      ∀ s : Rat,
        (get_recommendations deps d l).recommendations.filter
            (fun z => decide (z.similarity_score = s))
          = (fuse (get_places_by_ids table (sims.map SearchHit.id)) sims).filter
              (fun z => decide (z.similarity_score = s))) := by
  constructor
  · intro i h
    have hsorted := recommendations_sorted deps d l
    rw [List.pairwise_iff_get] at hsorted
    exact hsorted ⟨i, Nat.lt_of_succ_lt h⟩ ⟨i + 1, h⟩ (Nat.lt_succ_self i)
  · intro emb sims table hh hp hs hne hdb s
    rw [run_success deps d l emb sims table hh hp hs hne hdb]
    exact filter_sortByScoreDesc _ s

set_option maxRecDepth 100000 in
/-- Witness for the amended C2 at the tie fixture: scores descend, and
the score-1 class of the response equals the fused (relational-order)
list filtered to score 1. -/
theorem C2_ranking_witness :
    ((get_recommendations depsTie "q" 5).recommendations.get
        ⟨1, by decide⟩).similarity_score
      ≤ ((get_recommendations depsTie "q" 5).recommendations.get
          ⟨0, by decide⟩).similarity_score ∧
    (get_recommendations depsTie "q" 5).recommendations.filter
        (fun z => decide (z.similarity_score = 1))
      = (fuse (get_places_by_ids [placeB, placeA] (simsTie.map SearchHit.id))
            simsTie).filter (fun z => decide (z.similarity_score = 1)) :=
  ⟨(C2_ranking depsTie "q" 5).1 0 (by decide),
   (C2_ranking depsTie "q" 5).2 (List.replicate 1536 0) simsTie [placeB, placeA]
     rfl rfl rfl (by decide) rfl 1⟩

/-- C3: on a successful run, every returned recommendation id comes from
the vector search's id list (given that the searched ids are canonical,
i.e. printing the parsed id reproduces the string) and resolves to a
live row of the relational table; vector-index ids without such a row
are simply absent, never an error. -/
theorem C3_subset_invariant (deps : ServiceDeps) (d : String) (l : Nat)
    (emb : List Rat) (sims : List SearchHit) (table : List Place)
    (hh : deps.health_connected = true) (hp : deps.provider d = .ok emb)
    (hs : search_similar_places deps.backend emb l score_threshold = .ok sims)
    (hdb : deps.db = .ok table)
    (hrt : ∀ s ∈ sims.map SearchHit.id, (parseId s).map idToString = some s) :
    ((get_recommendations deps d l).recommendations.all
      (fun r => decide (idToString r.id ∈ sims.map SearchHit.id)
        && decide (∃ p ∈ table, p.id = r.id ∧ p.deleted_at = none))) = true := by
  rw [List.all_eq_true]
  intro r hr
  obtain ⟨p, hpt, hpd, ⟨s, hsmem, hps⟩, hrp⟩ :=
    recommendations_shape deps d l emb sims table hh hp hs hdb r hr
  have hid : r.id = p.id := by
    rw [hrp]
    rfl
  have hstr : idToString p.id = s := by
    have h2 := hrt s hsmem
    rw [hps] at h2
    exact Option.some.inj h2
  simp only [Bool.and_eq_true, decide_eq_true_eq]
  refine ⟨?_, ⟨p, hpt, hid.symm, hpd⟩⟩
  rw [hid, hstr]
  exact hsmem

set_option maxRecDepth 100000 in
/-- Witness for C3 at the tie fixture. -/
theorem C3_subset_invariant_witness :
    ((get_recommendations depsTie "q" 5).recommendations.all
      (fun r => decide (idToString r.id ∈ simsTie.map SearchHit.id)
        && decide (∃ p ∈ [placeB, placeA],
              p.id = r.id ∧ p.deleted_at = none))) = true :=
  C3_subset_invariant depsTie "q" 5 (List.replicate 1536 0) simsTie
    [placeB, placeA] rfl rfl rfl rfl (by decide)

/-- C4: on a successful run in which the vector index honours its
contract (every returned hit scores at least the requested threshold)
and returns canonical id strings, every returned similarity score is at
least the configured `score_threshold`; the `0.0` default for an id
missing from the score map is unreachable on such a run. -/
theorem C4_threshold_invariant (deps : ServiceDeps) (d : String) (l : Nat)
    (emb : List Rat) (sims : List SearchHit) (table : List Place)
    (hh : deps.health_connected = true) (hp : deps.provider d = .ok emb)
    (hs : search_similar_places deps.backend emb l score_threshold = .ok sims)
    (hdb : deps.db = .ok table)
    (hscore : ∀ hit ∈ sims, score_threshold ≤ hit.score)
    (hrt : ∀ s ∈ sims.map SearchHit.id, (parseId s).map idToString = some s) :
    ((get_recommendations deps d l).recommendations.all
      (fun r => decide (score_threshold ≤ r.similarity_score))) = true := by
  rw [List.all_eq_true]
  intro r hr
  obtain ⟨p, hpt, hpd, ⟨s, hsmem, hps⟩, hrp⟩ :=
    recommendations_shape deps d l emb sims table hh hp hs hdb r hr
  have hstr : idToString p.id = s := by
    have h2 := hrt s hsmem
    rw [hps] at h2
    exact Option.some.inj h2
  have hkey : idToString p.id
      ∈ (sims.map (fun h2 => (h2.id, h2.score))).map Prod.fst := by
    rw [hstr, List.map_map]
    simpa using hsmem
  obtain ⟨v, hlook, hkv⟩ := lookupScore_mem _ _ hkey
  rw [List.mem_map] at hkv
  obtain ⟨hit, hhit, hpair⟩ := hkv
  have hv : hit.score = v := congrArg Prod.snd hpair
  have hthr : score_threshold ≤ v := hv ▸ hscore hit hhit
  rw [hrp]
  simp only [decide_eq_true_eq]
  show score_threshold
    ≤ (lookupScore (sims.map (fun h2 => (h2.id, h2.score)))
        (idToString p.id)).getD 0
  rw [hlook]
  simpa using hthr

set_option maxRecDepth 100000 in
/-- Witness for C4 at the tie fixture. -/
theorem C4_threshold_invariant_witness :
    ((get_recommendations depsTie "q" 5).recommendations.all
      (fun r => decide (score_threshold ≤ r.similarity_score))) = true :=
  C4_threshold_invariant depsTie "q" 5 (List.replicate 1536 0) simsTie
    [placeB, placeA] rfl rfl rfl rfl (by decide) (by decide)

/-- An address with a comma but matching none of the five patterns. -/
def addrNoPattern : String := "Avenida Siempreviva 742, Springfield"

/-- Counterexample for C7: on an address where no pattern matches, the
qdrant generator's extraction returns the empty string even though the
address has text after its first comma — there is no comma fallback in
`create_embedings_qdrant.py` (only the legacy `create_embedings.py`
generator has one). -/
theorem C7_counterexample :
    firstPatternMatch neighborhoodPatterns addrNoPattern.toList = none ∧
    afterFirstComma addrNoPattern = "Springfield" ∧
    extract_neighborhood_from_address addrNoPattern = "" ∧
    "Springfield" ≠ "" := by
  decide

/-- C7 (amended): the active (qdrant) generator's neighborhood
extraction tries the prioritised patterns in order; it returns the empty
string when the address is empty, returns the empty string whenever no
pattern matches (no comma fallback), and on the first match returns the
cleaned capture of the highest-priority matching pattern. -/
theorem C7_neighborhood_extraction (address : String) :
    (address = "" → extract_neighborhood_from_address address = "") ∧
    (firstPatternMatch neighborhoodPatterns address.toList = none →
      extract_neighborhood_from_address address = "") ∧
    (∀ cap, firstPatternMatch neighborhoodPatterns address.toList = some cap →
      extract_neighborhood_from_address address
        = String.mk (cleanupNeighborhood cap)) := by
  refine ⟨?_, ?_, ?_⟩
  · intro h
    subst h
    rfl
  · intro h
    unfold extract_neighborhood_from_address
    simp only [String.toList] at h
    by_cases he : address.isEmpty
    · simp [he]
    · simp [he, h]
  · intro cap h
    unfold extract_neighborhood_from_address
    simp only [String.toList] at h
    by_cases he : address.isEmpty
    · exfalso
      have hempty : address = "" := (String.isEmpty_iff address).mp he
      rw [hempty] at h
      exact Option.noConfusion h
    · simp [he, h]

/-- Witness for the amended C7 on the three behaviours: empty address,
no pattern match, and a pattern match. -/
theorem C7_neighborhood_extraction_witness :
    extract_neighborhood_from_address "" = "" ∧
    extract_neighborhood_from_address "Avenida Siempreviva 742" = "" ∧
    extract_neighborhood_from_address "Colonia Roma, CDMX"
      = String.mk (cleanupNeighborhood ("Roma".toList)) :=
  ⟨(C7_neighborhood_extraction "").1 rfl,
   (C7_neighborhood_extraction "Avenida Siempreviva 742").2.1 (by decide),
   (C7_neighborhood_extraction "Colonia Roma, CDMX").2.2 ("Roma".toList) (by decide)⟩

end RecPlaces
